import Mathlib

/-!
# slog-hooks: a hook-dispatching decorator over a `slog.Handler`

Shallow embedding of `main.go`.

Modelling conventions.

* `slog.Level` is `type Level int`; it is embedded as `Int`.  The code only ever
  compares levels with `==`, so no width is involved.
* Go's `error` is embedded as `Option String`: `none` is `nil`.
* The outside world (standard output, whatever the hooks and the inner handler
  touch) is an explicit state of an arbitrary type `σ` that is passed along.
* The `slog.Handler` interface value `next` is embedded as a carrier value of
  an arbitrary type `H` together with its four methods (`Handler σ H`);
  `WithAttrs` / `WithGroup` return a new carrier value.
* A `slog.Record` is embedded as its struct.  What the struct points to (the
  backing array of its `back` slice, the arrays behind group values) is a
  `Heap` that is part of the world; the methods of `log/slog` that hooks and
  handlers use on records (`Attrs`, `NumAttrs`, `AddAttrs`, `Value.Group`) are
  embedded after the standard library.
* A `Hook` is its two methods.  `Levels()` is a fixed list (it may contain any
  integers, repeated entries, or be empty).  `Fire` receives the record its
  pointer argument points to, and returns the final contents of that record,
  the returned error and the new world.
* Every call of `Fire` and of the inner `Handle` made by `HookHandler.Handle`
  is recorded, in order, in `HandleResult.calls`.
* Hooks and the inner handler are non-nil and their methods return.
-/

namespace SlogHooks

/-! ## Data model -/

/-- Type `slog.Level` (`type Level int`). -/
abbrev Level := Int

/-- Constant `slog.LevelDebug`. -/
def LevelDebug : Level := -4
/-- Constant `slog.LevelInfo`. -/
def LevelInfo : Level := 0
/-- Constant `slog.LevelWarn`. -/
def LevelWarn : Level := 4
/-- Constant `slog.LevelError`. -/
def LevelError : Level := 8

/-- The four named severity levels of `log/slog`. -/
def standardLevels : List Level := [LevelDebug, LevelInfo, LevelWarn, LevelError]

/-- Go `error`: `none` is `nil`. -/
abbrev GoError := Option String

/-- Type `slog.Value`, for the kinds used here: the zero value, a string, or a
group.  A group value is a pointer: `arr` is the address of the backing array
holding its attributes and `num` their number (`groupptr` and `num` in
`log/slog`); copying the value copies the pointer, not the array. -/
inductive Value where
  | empty
  | str (s : String)
  | group (arr : Nat) (num : Nat)
deriving DecidableEq, Repr

/-- Type `slog.Attr`, a key/value pair. -/
structure Attr where
  Key : String
  Value : Value
deriving DecidableEq, Repr

/-- A Go slice header `[]Attr`: address of the backing array, length and
capacity.  The nil slice has length and capacity 0. -/
structure Slice where
  arr : Nat
  len : Nat
  cap : Nat
deriving DecidableEq, Repr

/-- Type `slog.Record`, field by field: `Time`, `Message`, `Level`, `PC`, the
inline array `front` (5 slots) with the number `nFront` of slots in use, and
the slice `back` of the remaining attributes.  A struct copy (`cp := r`) copies
these fields; the backing array of `back` and the arrays behind group values
are not part of the struct, they stay where they are, in the `Heap`. -/
structure Record where
  Time : Int
  Message : String
  Level : Level
  PC : Nat
  front : List Attr
  nFront : Nat
  back : Slice
deriving DecidableEq, Repr

/-- The backing arrays, by address; the length of an array is its number of
allocated slots. -/
abbrev Heap := List (List Attr)

/-- Type `context.Context`; the handler only passes it on. -/
structure Context where
  values : List (String × String)
deriving DecidableEq, Repr

/-- Outcome of one `Fire(&cp)`: the contents of `cp` when `Fire` returns, the
returned error, and the world after the call. -/
structure FireResult (σ : Type) where
  cp : Record
  err : GoError
  state : σ

/-- Interface `Hook` (main.go 12-15). -/
structure Hook (σ : Type) where
  Levels : List Level
  Fire : Record → σ → FireResult σ

/-- Interface `slog.Handler`, as the four methods of a carrier `H`. -/
structure Handler (σ H : Type) where
  Enabled : H → Context → Level → σ → Bool
  Handle : H → Context → Record → σ → GoError × σ
  WithAttrs : H → List Attr → H
  WithGroup : H → String → H

/-- Struct `HookHandler` (main.go 19-22). -/
structure HookHandler (σ H : Type) where
  next : H
  hooks : List (Hook σ)

/-- One call made by `HookHandler.Handle`: `hooks[pos].Fire(&cp)` with the
contents of `cp` at the call, or `next.Handle(ctx, r)`. -/
inductive Call where
  | fire (pos : Nat) (cp : Record)
  | handle (ctx : Context) (r : Record)
deriving DecidableEq, Repr

/-- The world and the calls made so far, threaded through the loops. -/
structure Run (σ : Type) where
  state : σ
  calls : List Call

/-- Result of `HookHandler.Handle`: returned error, world afterwards, and the
calls made, in order. -/
structure HandleResult (σ : Type) where
  err : GoError
  state : σ
  calls : List Call

/-! ## Operations of `HookHandler` -/

/-- Function `NewHookHandler` (main.go 24-26). -/
def NewHookHandler {σ H : Type} (next : H) (hooks : List (Hook σ)) : HookHandler σ H :=
  { next := next, hooks := hooks }

/-- Method `AddHook` (main.go 28-30): `h.hooks = append(h.hooks, hook)`. -/
def HookHandler.AddHook {σ H : Type} (h : HookHandler σ H) (hook : Hook σ) : HookHandler σ H :=
  { h with hooks := h.hooks ++ [hook] }

/-- Method `Enabled` (main.go 32-34). -/
def HookHandler.Enabled {σ H : Type} (ops : Handler σ H) (h : HookHandler σ H)
    (ctx : Context) (level : Level) (s : σ) : Bool :=
  ops.Enabled h.next ctx level s

/-- Inner loop of `Handle` (main.go 39-45): `for _, lvl := range hk.Levels()`. -/
def fireLevels {σ : Type} (hk : Hook σ) (pos : Nat) (r : Record) :
    List Level → Run σ → Run σ
  | [], run => run
  | lvl :: rest, run =>
    if lvl = r.Level then
      let cp := r
      -- `_ = hk.Fire(&cp)`: the error and the final contents of `cp` are dropped
      let out := hk.Fire cp run.state
      fireLevels hk pos r rest { state := out.state, calls := run.calls ++ [Call.fire pos cp] }
    else
      fireLevels hk pos r rest run

/-- Outer loop of `Handle` (main.go 38-46): `for _, hk := range h.hooks`;
`pos` is the index of the head of the remaining list. -/
def fireHooks {σ : Type} (r : Record) : List (Hook σ) → Nat → Run σ → Run σ
  | [], _, run => run
  | hk :: rest, pos, run => fireHooks r rest (pos + 1) (fireLevels hk pos r hk.Levels run)

/-- Method `Handle` (main.go 36-50). -/
def HookHandler.Handle {σ H : Type} (ops : Handler σ H) (h : HookHandler σ H)
    (ctx : Context) (r : Record) (s : σ) : HandleResult σ :=
  let run := fireHooks r h.hooks 0 { state := s, calls := [] }
  let out := ops.Handle h.next ctx r run.state
  { err := out.1, state := out.2, calls := run.calls ++ [Call.handle ctx r] }

/-- Method `WithAttrs` (main.go 52-57). -/
def HookHandler.WithAttrs {σ H : Type} (ops : Handler σ H) (h : HookHandler σ H)
    (attrs : List Attr) : HookHandler σ H :=
  { next := ops.WithAttrs h.next attrs, hooks := h.hooks }

/-- Method `WithGroup` (main.go 59-64). -/
def HookHandler.WithGroup {σ H : Type} (ops : Handler σ H) (h : HookHandler σ H)
    (name : String) : HookHandler σ H :=
  { next := ops.WithGroup h.next name, hooks := h.hooks }

/-- A `HookHandler` is itself a `slog.Handler`. -/
def HookHandler.asHandler {σ H : Type} (ops : Handler σ H) : Handler σ (HookHandler σ H) where
  Enabled := fun h ctx level s => HookHandler.Enabled ops h ctx level s
  Handle := fun h ctx r s =>
    let res := HookHandler.Handle ops h ctx r s
    (res.err, res.state)
  WithAttrs := fun h attrs => HookHandler.WithAttrs ops h attrs
  WithGroup := fun h name => HookHandler.WithGroup ops h name

/-! ## The example hook -/

/-- Method `slog.Level.String` of the standard library: the name of the
nearest named level below, followed by the signed offset when it is not 0. -/
def levelString (l : Level) : String :=
  let str := fun (base : String) (val : Int) =>
    if val = 0 then base
    else if 0 ≤ val then base ++ "+" ++ toString val
    else base ++ toString val
  if l < LevelInfo then str "DEBUG" (l - LevelDebug)
  else if l < LevelWarn then str "INFO" (l - LevelInfo)
  else if l < LevelError then str "WARN" (l - LevelWarn)
  else str "ERROR" (l - LevelError)

/-- The line `fmt.Println("HOOK FIRED:", r.Level, r.Message)` writes (without
the newline): operands separated by single spaces. -/
def hookLine (r : Record) : String :=
  "HOOK FIRED: " ++ levelString r.Level ++ " " ++ r.Message

/-- Type `PrintHook` (main.go 68-77); `println` is the effect of `fmt.Println`
on the world, given the line. -/
def PrintHook {σ : Type} (println : String → σ → σ) : Hook σ where
  Levels := [LevelInfo, LevelError]
  Fire := fun r s => { cp := r, err := none, state := println (hookLine r) s }

/-! ## Records and their storage, after `log/slog` -/

/-- The zero `Attr`. -/
def Attr.zero : Attr := { Key := "", Value := Value.empty }

/-- The inline array of a record without attributes: five zero slots. -/
def noAttrs : List Attr := [Attr.zero, Attr.zero, Attr.zero, Attr.zero, Attr.zero]

/-- Method `Attr.isEmpty` of `log/slog`: empty key and zero value. -/
def Attr.isEmpty (a : Attr) : Bool :=
  a.Key == "" && a.Value == Value.empty

/-- Method `Value.isEmptyGroup` of `log/slog`: a group without attributes. -/
def Value.isEmptyGroup : Value → Bool
  | Value.group _ num => num == 0
  | _ => false

/-- The nil slice. -/
def Slice.nil : Slice := { arr := 0, len := 0, cap := 0 }

/-- The backing array at an address (no slots at an address never allocated). -/
def Heap.array (h : Heap) (arr : Nat) : List Attr := h.getD arr []

/-- Assignment `array[i] = a` into the backing array at `arr`. -/
def Heap.store (h : Heap) (arr i : Nat) (a : Attr) : Heap :=
  h.set arr ((h.array arr).set i a)

/-- The elements `s[0], ..., s[len-1]` of a slice. -/
def Slice.elems (h : Heap) (s : Slice) : List Attr := (h.array s.arr).take s.len

/-- The slot `s[:i+1][i]` of the backing array of a slice, for `i` below its
capacity. -/
def Slice.slot (h : Heap) (s : Slice) (i : Nat) : Attr := (h.array s.arr).getD i Attr.zero

/-- Function `slices.Clip`: capacity cut down to the length. -/
def Slice.clip (s : Slice) : Slice := { s with cap := s.len }

/-- Capacity of the array Go allocates when a slice of capacity `oldCap` has to
hold `needed` elements: doubling for small slices (the rounding up to an
allocation size class is left out; only slots below the length are read by
what follows). -/
def growCap (oldCap needed : Nat) : Nat := max needed (2 * oldCap)

/-- Built-in `append(s, a)`: in place when there is spare capacity, which
writes the slot `s.len` of the shared backing array; into a new array
otherwise. -/
def Slice.append (s : Slice) (a : Attr) (h : Heap) : Slice × Heap :=
  if s.len < s.cap then
    ({ s with len := s.len + 1 }, h.store s.arr s.len a)
  else
    let newCap := growCap s.cap (s.len + 1)
    let slots := s.elems h ++ [a] ++ List.replicate (newCap - (s.len + 1)) Attr.zero
    ({ arr := h.length, len := s.len + 1, cap := newCap }, h ++ [slots])

/-- Function `slices.Grow(s, n)`: room for `n` more elements; a new array when
the spare capacity is less than `n`. -/
def Slice.grow (s : Slice) (n : Nat) (h : Heap) : Slice × Heap :=
  if s.cap - s.len < n then
    let newCap := growCap s.cap (s.len + n)
    let slots := (h.array s.arr).take s.cap ++ List.replicate (newCap - s.cap) Attr.zero
    ({ arr := h.length, len := s.len, cap := newCap }, h ++ [slots])
  else
    (s, h)

/-- Method `Value.Group()[i] = a` on a group value: `Group` returns a slice
over the group's own backing array, so the assignment writes that array. -/
def Value.setGroupElem (v : Value) (i : Nat) (a : Attr) (h : Heap) : Heap :=
  match v with
  | Value.group arr num => if i < num then h.store arr i a else h
  | _ => h

/-- Method `Record.NumAttrs`. -/
def Record.NumAttrs (r : Record) : Nat := r.nFront + r.back.len

/-- Method `Record.Attrs`: the attributes the iteration visits, in order. -/
def Record.Attrs (r : Record) (h : Heap) : List Attr :=
  r.front.take r.nFront ++ r.back.elems h

/-- The attribute `Record.AddAttrs` appends when it finds the slot after the
end of `back` used. -/
def bugAttr : Attr :=
  { Key := "!BUG",
    Value := Value.str "AddAttrs unsafely called on copy of Record made without using Record.Clone" }

/-- First loop of `Record.AddAttrs`: fill the inline array while it has room;
returns the attributes not consumed, `attrs[i:]`. -/
def addFront : List Attr → Record → List Attr × Record
  | [], r => ([], r)
  | a :: rest, r =>
    if r.nFront < 5 then
      if a.Value.isEmptyGroup then addFront rest r
      else addFront rest { r with front := r.front.set r.nFront a, nFront := r.nFront + 1 }
    else
      (a :: rest, r)

/-- Last loop of `Record.AddAttrs`: append what is not an empty group to `back`. -/
def appendBack : List Attr → Slice → Heap → Slice × Heap
  | [], s, h => (s, h)
  | a :: rest, s, h =>
    if a.Value.isEmptyGroup then appendBack rest s h
    else appendBack rest (s.append a h).1 (s.append a h).2

/-- Method `Record.AddAttrs` of `log/slog` on the record `r` points to: the
inline array first; then the check of the slot after the end of `back`, with
the `!BUG` attribute when it is in use; then `slices.Grow` and the appends. -/
def Record.AddAttrs (r : Record) (attrs : List Attr) (h : Heap) : Record × Heap :=
  let r1 := (addFront attrs r).2
  let rest := (addFront attrs r).1
  let checked : Slice × Heap :=
    if r1.back.len < r1.back.cap then
      if (r1.back.slot h r1.back.len).isEmpty then (r1.back, h)
      else r1.back.clip.append bugAttr h
    else (r1.back, h)
  let ne := rest.countP fun a => a.Value.isEmptyGroup
  let grown := checked.1.grow (rest.length - ne) checked.2
  let done := appendBack rest grown.1 grown.2
  ({ r1 with back := done.1 }, done.2)

/-- World of the storage scenario: the backing arrays and standard output. -/
structure Mem where
  heap : Heap
  out : List String
deriving DecidableEq, Repr

/-- Rendering of a value that is not a group. -/
def renderValue : Value → String
  | Value.empty => "<nil>"
  | Value.str s => s
  | Value.group _ _ => "<group>"

/-- Rendering of one attribute as `key=value`; the attributes of a group are
read from its backing array and rendered as `key.k=value`. -/
def renderAttr (h : Heap) (a : Attr) : List String :=
  match a.Value with
  | Value.group arr num =>
    ((h.array arr).take num).map fun b => a.Key ++ "." ++ b.Key ++ "=" ++ renderValue b.Value
  | v => [a.Key ++ "=" ++ renderValue v]

/-- The line `<level> <message> <attributes>` of a record. -/
def renderRecord (h : Heap) (r : Record) : String :=
  String.intercalate " " ([levelString r.Level, r.Message] ++ (r.Attrs h).flatMap (renderAttr h))

/-- An inner handler that writes the rendered record, attributes included, and
succeeds; it only reads the record. -/
def attrHandler : Handler Mem Unit where
  Enabled := fun _ _ _ _ => true
  Handle := fun _ _ r w => (none, { w with out := w.out ++ [renderRecord w.heap r] })
  WithAttrs := fun h _ => h
  WithGroup := fun h _ => h

/-- A hook on Info whose `Fire` is
`r.AddAttrs(slog.String("seen", "yes")); fmt.Println("attrs:", r.NumAttrs()); return nil`. -/
def tagHook : Hook Mem where
  Levels := [LevelInfo]
  Fire := fun cp w =>
    let added := cp.AddAttrs [⟨"seen", Value.str "yes"⟩] w.heap
    { cp := added.1, err := none,
      state := { heap := added.2, out := w.out ++ ["attrs: " ++ toString added.1.NumAttrs] } }

/-- A hook on Info whose `Fire` looks at the first attribute of its copy and,
when that is a non-empty group, assigns `a.Value.Group()[0] = slog.String("id", "mutated")`. -/
def groupHook : Hook Mem where
  Levels := [LevelInfo]
  Fire := fun cp w =>
    match (cp.Attrs w.heap).head? with
    | some a =>
      { cp := cp, err := none,
        state := { w with heap := a.Value.setGroupElem 0 ⟨"id", Value.str "mutated"⟩ w.heap } }
    | none => { cp := cp, err := none, state := w }

/-- Backing arrays of `sharedRecord`: at 0 the array of the group `req`, at 1
the array of `back`, one slot in use and one spare. -/
def sharedHeap : Heap :=
  [[⟨"id", Value.str "42"⟩], [⟨"k6", Value.str "v6"⟩, Attr.zero]]

/-- The record of `logger.Info("hello world", slog.Group("req", "id", "42"),
"k2", "v2", "k3", "v3", "k4", "v4", "k5", "v5", "k6", "v6", slog.Group("none"))`:
five attributes inline, the sixth in `back`, allocated for two because the
empty group was counted and then skipped. -/
def sharedRecord : Record :=
  { Time := 0, Message := "hello world", Level := LevelInfo, PC := 0,
    front := [⟨"req", Value.group 0 1⟩, ⟨"k2", Value.str "v2"⟩, ⟨"k3", Value.str "v3"⟩,
      ⟨"k4", Value.str "v4"⟩, ⟨"k5", Value.str "v5"⟩],
    nFront := 5, back := { arr := 1, len := 1, cap := 2 } }

/-- The world `Handle` is called in, in the storage scenario. -/
def sharedMem : Mem := { heap := sharedHeap, out := [] }

/-! ## Observations on the recorded calls -/

/-- Is the call a `Fire`? -/
def Call.isFire : Call → Bool
  | Call.fire _ _ => true
  | Call.handle _ _ => false

/-- Is the call the inner handler's `Handle`? -/
def Call.isHandle : Call → Bool
  | Call.fire _ _ => false
  | Call.handle _ _ => true

/-- Is the call a `Fire` of the hook at position `i`? -/
def Call.isFireAt (i : Nat) : Call → Bool
  | Call.fire pos _ => pos == i
  | Call.handle _ _ => false

/-- The record handed over by the call. -/
def Call.record : Call → Record
  | Call.fire _ cp => cp
  | Call.handle _ r => r

/-- Number of `Fire` calls of the hook at position `i`. -/
def fireCount (i : Nat) (calls : List Call) : Nat :=
  calls.countP (Call.isFireAt i)

/-- The `Fire` calls the hook `p.2`, registered at position `p.1`, contributes
for a record. -/
def hookFires {σ : Type} (r : Record) (p : Nat × Hook σ) : List Call :=
  p.2.Levels.flatMap fun lvl => if lvl = r.Level then [Call.fire p.1 r] else []

/-- Number of entries of `hooks[i].Levels()` equal to the record's level (0 when
there is no hook at position `i`). -/
def matchCount {σ : Type} (r : Record) (hooks : List (Hook σ)) (i : Nat) : Nat :=
  match hooks[i]? with
  | some hk => hk.Levels.count r.Level
  | none => 0

/-! ## Variations of hooks, used to state what `Handle` does not depend on -/

/-- The hook `hk` with the error returned by `Fire` replaced by `e`. -/
def Hook.withErr {σ : Type} (hk : Hook σ) (e : Record → σ → GoError) : Hook σ where
  Levels := hk.Levels
  Fire := fun cp s => { cp := (hk.Fire cp s).cp, err := e cp s, state := (hk.Fire cp s).state }

/-- The hook `hk` with what `Fire` leaves in the record it was given replaced
by `m`. -/
def Hook.withCopy {σ : Type} (hk : Hook σ) (m : Record → σ → Record) : Hook σ where
  Levels := hk.Levels
  Fire := fun cp s => { cp := m cp s, err := (hk.Fire cp s).err, state := (hk.Fire cp s).state }

/-- Replace the errors returned by every hook of the list, position by position. -/
def replaceErrs {σ : Type} (e : Nat → Record → σ → GoError) : Nat → List (Hook σ) → List (Hook σ)
  | _, [] => []
  | pos, hk :: rest => hk.withErr (e pos) :: replaceErrs e (pos + 1) rest

/-- Replace what every hook of the list does to its copy, position by position. -/
def replaceCopies {σ : Type} (m : Nat → Record → σ → Record) : Nat → List (Hook σ) → List (Hook σ)
  | _, [] => []
  | pos, hk :: rest => hk.withCopy (m pos) :: replaceCopies m (pos + 1) rest

/-- The hook `hk` without the entries of `Levels()` equal to `lvl`. -/
def Hook.dropLevel {σ : Type} (lvl : Level) (hk : Hook σ) : Hook σ where
  Levels := hk.Levels.filter fun l => decide (l ≠ lvl)
  Fire := hk.Fire

/-! ## Concrete instances -/

/-- World of the demonstration: the lines written to standard output. -/
abbrev Stdout := List String

/-- Writing one line to standard output. -/
def stdoutPrintln (line : String) (out : Stdout) : Stdout := out ++ [line]

/-- An inner handler that writes the line `<level> <message>` and succeeds. -/
def lineHandler : Handler Stdout Unit where
  Enabled := fun _ _ level _ => decide (LevelInfo ≤ level)
  Handle := fun _ _ r out => (none, stdoutPrintln (levelString r.Level ++ " " ++ r.Message) out)
  WithAttrs := fun h _ => h
  WithGroup := fun h _ => h

/-- An inner handler that writes nothing and fails on records with an empty
message. -/
def strictHandler : Handler Stdout Nat where
  Enabled := fun _ _ _ _ => true
  Handle := fun _ _ r out => (if r.Message = "" then some "empty message" else none, out)
  WithAttrs := fun h attrs => h + attrs.length
  WithGroup := fun h _ => h + 1

/-- A hook on Info that fails, overwrites the message of its copy and writes a line. -/
def failingHook : Hook Stdout where
  Levels := [LevelInfo]
  Fire := fun cp out =>
    { cp := { cp with Message := "overwritten" }, err := some "hook failed",
      state := stdoutPrintln ("failing hook saw " ++ cp.Message) out }

/-- A hook whose `Levels()` lists Info twice. -/
def dupHook : Hook Stdout where
  Levels := [LevelInfo, LevelInfo]
  Fire := fun cp out => { cp := cp, err := none, state := stdoutPrintln "dup" out }

/-- A hook interested in the non-standard level 2 (Info+2) and in Warn. -/
def customHook : Hook Stdout where
  Levels := [2, LevelWarn]
  Fire := fun cp out => { cp := cp, err := none, state := stdoutPrintln "custom" out }

/-- The empty context. -/
def background : Context := { values := [] }

/-- The record of `logger.Info("hello world", "user", "alice")`. -/
def infoRecord : Record :=
  { Time := 0, Message := "hello world", Level := LevelInfo, PC := 0,
    front := [⟨"user", Value.str "alice"⟩, Attr.zero, Attr.zero, Attr.zero, Attr.zero],
    nFront := 1, back := Slice.nil }

/-- The record of `logger.Warn("this should NOT fire the hook")`. -/
def warnRecord : Record :=
  { Time := 1, Message := "this should NOT fire the hook", Level := LevelWarn, PC := 0,
    front := noAttrs, nFront := 0, back := Slice.nil }

/-- The record of `logger.Error("oh no")`. -/
def errorRecord : Record :=
  { Time := 2, Message := "oh no", Level := LevelError, PC := 0,
    front := noAttrs, nFront := 0, back := Slice.nil }

/-- A record at the non-standard level 2, as `logger.Log(ctx, slog.Level(2), "custom")`
builds it. -/
def customRecord : Record :=
  { Time := 3, Message := "custom", Level := 2, PC := 0,
    front := noAttrs, nFront := 0, back := Slice.nil }

/-- The handler `main` builds (main.go 82-85), over the line-writing inner handler. -/
def demoHandler : HookHandler Stdout Unit :=
  (NewHookHandler () []).AddHook (PrintHook stdoutPrintln)

/-- Standard output after the three records of `main` went through
`demoHandler`, starting from nothing. -/
def demoOutput : Stdout :=
  let s1 := (HookHandler.Handle lineHandler demoHandler background infoRecord []).state
  let s2 := (HookHandler.Handle lineHandler demoHandler background warnRecord s1).state
  (HookHandler.Handle lineHandler demoHandler background errorRecord s2).state

/-! ## Lemmas on the two loops -/

theorem fireLevels_calls {σ : Type} (hk : Hook σ) (pos : Nat) (r : Record) (ls : List Level)
    (run : Run σ) :
    (fireLevels hk pos r ls run).calls
      = run.calls ++ ls.flatMap fun lvl => if lvl = r.Level then [Call.fire pos r] else [] := by
  induction ls generalizing run with
  | nil => simp [fireLevels]
  | cons lvl rest ih =>
    by_cases hl : lvl = r.Level
    · simp [fireLevels, hl, ih]
    · simp [fireLevels, hl, ih]

theorem fireHooks_calls {σ : Type} (r : Record) (hooks : List (Hook σ)) (pos : Nat)
    (run : Run σ) :
    (fireHooks r hooks pos run).calls
      = run.calls ++ (hooks.enumFrom pos).flatMap (hookFires r) := by
  induction hooks generalizing pos run with
  | nil => simp [fireHooks]
  | cons hk rest ih =>
    simp [fireHooks, ih, fireLevels_calls, hookFires]

theorem fireLevels_congr {σ : Type} (hk hk2 : Hook σ) (pos : Nat) (r : Record)
    (hst : ∀ cp s, (hk2.Fire cp s).state = (hk.Fire cp s).state) (ls : List Level)
    (run : Run σ) :
    fireLevels hk2 pos r ls run = fireLevels hk pos r ls run := by
  induction ls generalizing run with
  | nil => simp [fireLevels]
  | cons lvl rest ih =>
    by_cases hl : lvl = r.Level
    · simp [fireLevels, hl, ih, hst]
    · simp [fireLevels, hl, ih]

theorem fireHooks_replaceErrs {σ : Type} (e : Nat → Record → σ → GoError) (r : Record)
    (hooks : List (Hook σ)) (pos : Nat) (run : Run σ) :
    fireHooks r (replaceErrs e pos hooks) pos run = fireHooks r hooks pos run := by
  induction hooks generalizing pos run with
  | nil => simp [replaceErrs, fireHooks]
  | cons hk rest ih =>
    have h1 : fireLevels (hk.withErr (e pos)) pos r hk.Levels run
        = fireLevels hk pos r hk.Levels run :=
      fireLevels_congr hk (hk.withErr (e pos)) pos r (fun _ _ => rfl) hk.Levels run
    simp only [replaceErrs, fireHooks, ih]
    rw [show (hk.withErr (e pos)).Levels = hk.Levels from rfl, h1]

theorem fireHooks_replaceCopies {σ : Type} (m : Nat → Record → σ → Record) (r : Record)
    (hooks : List (Hook σ)) (pos : Nat) (run : Run σ) :
    fireHooks r (replaceCopies m pos hooks) pos run = fireHooks r hooks pos run := by
  induction hooks generalizing pos run with
  | nil => simp [replaceCopies, fireHooks]
  | cons hk rest ih =>
    have h1 : fireLevels (hk.withCopy (m pos)) pos r hk.Levels run
        = fireLevels hk pos r hk.Levels run :=
      fireLevels_congr hk (hk.withCopy (m pos)) pos r (fun _ _ => rfl) hk.Levels run
    simp only [replaceCopies, fireHooks, ih]
    rw [show (hk.withCopy (m pos)).Levels = hk.Levels from rfl, h1]

theorem fireLevels_filter_ne {σ : Type} (hk : Hook σ) (pos : Nat) (r : Record) (lvl : Level)
    (hne : r.Level ≠ lvl) (ls : List Level) (run : Run σ) :
    fireLevels hk pos r (ls.filter fun l => decide (l ≠ lvl)) run = fireLevels hk pos r ls run := by
  induction ls generalizing run with
  | nil => simp [fireLevels]
  | cons l rest ih =>
    by_cases h2 : l = lvl
    · have hl : ¬ l = r.Level := fun h => hne (h ▸ h2)
      have hd : decide (l ≠ lvl) = false := by simp [h2]
      rw [List.filter_cons, hd]
      simp only [fireLevels, if_neg hl]
      exact ih run
    · have hd : decide (l ≠ lvl) = true := by simp [h2]
      rw [List.filter_cons, hd]
      by_cases hl : l = r.Level
      · simp only [fireLevels, if_pos hl, if_true]
        exact ih _
      · simp only [fireLevels, if_neg hl, if_true]
        exact ih _

theorem fireHooks_dropLevel {σ : Type} (r : Record) (lvl : Level) (hne : r.Level ≠ lvl)
    (hooks : List (Hook σ)) (pos : Nat) (run : Run σ) :
    fireHooks r (hooks.map (Hook.dropLevel lvl)) pos run = fireHooks r hooks pos run := by
  induction hooks generalizing pos run with
  | nil => simp [fireHooks]
  | cons hk rest ih =>
    have h1 : fireLevels (Hook.dropLevel lvl hk) pos r (Hook.dropLevel lvl hk).Levels run
        = fireLevels hk pos r hk.Levels run := by
      rw [fireLevels_congr hk (Hook.dropLevel lvl hk) pos r (fun _ _ => rfl)]
      exact fireLevels_filter_ne hk pos r lvl hne hk.Levels run
    simp only [List.map_cons, fireHooks, ih, h1]

/-! ## Lemmas on the recorded calls -/

theorem fireCount_levels (i pos : Nat) (r : Record) (ls : List Level) :
    fireCount i (ls.flatMap fun lvl => if lvl = r.Level then [Call.fire pos r] else [])
      = if pos = i then ls.count r.Level else 0 := by
  induction ls with
  | nil => simp [fireCount]
  | cons l rest ih =>
    unfold fireCount at ih ⊢
    rw [List.flatMap_cons, List.countP_append, ih, List.count_cons]
    by_cases hl : l = r.Level <;> by_cases hp : pos = i <;>
      simp [hl, hp, Call.isFireAt, Nat.add_comm]

theorem fireCount_enumFrom {σ : Type} (i : Nat) (r : Record) (hooks : List (Hook σ)) (n : Nat) :
    fireCount i ((hooks.enumFrom n).flatMap (hookFires r))
      = if n ≤ i then matchCount r hooks (i - n) else 0 := by
  induction hooks generalizing n with
  | nil => simp [fireCount, matchCount]
  | cons hk rest ih =>
    have ih2 := ih (n + 1)
    unfold fireCount at ih2 ⊢
    rw [List.enumFrom_cons, List.flatMap_cons, List.countP_append, ih2]
    have h1 := fireCount_levels i n r hk.Levels
    unfold fireCount at h1
    rw [show hookFires r (n, hk)
        = hk.Levels.flatMap fun lvl => if lvl = r.Level then [Call.fire n r] else [] from rfl, h1]
    rcases Nat.lt_trichotomy n i with hlt | heq | hgt
    · have e1 : i - n = (i - (n + 1)) + 1 := by omega
      have h2 : ¬ n = i := by omega
      have h3 : n + 1 ≤ i := by omega
      have h4 : n ≤ i := by omega
      rw [if_neg h2, if_pos h3, if_pos h4, e1]
      simp [matchCount]
    · subst heq
      simp [matchCount]
    · have h2 : ¬ n = i := by omega
      have h3 : ¬ n + 1 ≤ i := by omega
      have h4 : ¬ n ≤ i := by omega
      rw [if_neg h2, if_neg h3, if_neg h4]

theorem all_isFire_enumFrom {σ : Type} (r : Record) (hooks : List (Hook σ)) (n : Nat) :
    ∀ c ∈ (hooks.enumFrom n).flatMap (hookFires r), c.isFire = true ∧ c.record = r := by
  intro c hc
  rw [List.mem_flatMap] at hc
  obtain ⟨p, _, hp⟩ := hc
  unfold hookFires at hp
  rw [List.mem_flatMap] at hp
  obtain ⟨lvl, _, hl⟩ := hp
  by_cases h : lvl = r.Level
  · simp [h] at hl
    subst hl
    exact ⟨rfl, rfl⟩
  · simp [h] at hl

theorem matchCount_pos_iff {σ : Type} (r : Record) (hooks : List (Hook σ)) (i : Nat) :
    0 < matchCount r hooks i ↔ ∃ hk, hooks[i]? = some hk ∧ r.Level ∈ hk.Levels := by
  unfold matchCount
  cases h : hooks[i]? with
  | none => simp
  | some hk => simp [List.count_pos_iff]

/-- The calls of `Handle`: the specified dispatch, then the inner handler. -/
theorem Handle_calls_eq {σ H : Type} (ops : Handler σ H) (h : HookHandler σ H)
    (ctx : Context) (r : Record) (s : σ) :
    (HookHandler.Handle ops h ctx r s).calls
      = (h.hooks.enumFrom 0).flatMap (hookFires r) ++ [Call.handle ctx r] := by
  simp [HookHandler.Handle, fireHooks_calls]

/-! ## C1: the result of `Handle` is the inner handler's -/

/-- C1: `Handle` calls the inner handler's `Handle` exactly once, with the
context and the record it was given, and returns exactly what that call
returned (error and world); an error is returned if and only if the inner
handler returned it; and replacing the errors returned by the hooks' `Fire`
by anything else, hook by hook, changes nothing in what `Handle` does. -/
theorem Handle_returns_inner_result {σ H : Type} (ops : Handler σ H) (h : HookHandler σ H)
    (ctx : Context) (r : Record) (s : σ) (e : Nat → Record → σ → GoError) :
    (HookHandler.Handle ops h ctx r s).calls.filter Call.isHandle = [Call.handle ctx r]
    ∧ (HookHandler.Handle ops h ctx r s).err
        = (ops.Handle h.next ctx r (fireHooks r h.hooks 0 { state := s, calls := [] }).state).1
    ∧ (HookHandler.Handle ops h ctx r s).state
        = (ops.Handle h.next ctx r (fireHooks r h.hooks 0 { state := s, calls := [] }).state).2
    ∧ (∀ err, (HookHandler.Handle ops h ctx r s).err = some err
        ↔ (ops.Handle h.next ctx r
            (fireHooks r h.hooks 0 { state := s, calls := [] }).state).1 = some err)
    ∧ HookHandler.Handle ops { next := h.next, hooks := replaceErrs e 0 h.hooks } ctx r s
        = HookHandler.Handle ops h ctx r s := by
  refine ⟨?_, rfl, rfl, fun _ => Iff.rfl, ?_⟩
  · rw [Handle_calls_eq, List.filter_append]
    have hnone : ((h.hooks.enumFrom 0).flatMap (hookFires r)).filter Call.isHandle = [] := by
      rw [List.filter_eq_nil_iff]
      intro c hc
      have hf := (all_isFire_enumFrom r h.hooks 0 c hc).1
      cases c with
      | fire pos cp => simp [Call.isHandle]
      | handle c2 r2 => simp [Call.isFire] at hf
    rw [hnone]
    simp [Call.isHandle]
  · simp only [HookHandler.Handle, fireHooks_replaceErrs]

/-- C1 at concrete inputs: a hook that fails in front of an inner handler that
succeeds, and a hook that succeeds in front of an inner handler that fails. -/
theorem Handle_returns_inner_result_witness :
    (HookHandler.Handle lineHandler (NewHookHandler () [failingHook]) background infoRecord []).err
        = none
    ∧ (failingHook.Fire infoRecord []).err = some "hook failed"
    ∧ (HookHandler.Handle strictHandler (NewHookHandler 0 [PrintHook stdoutPrintln]) background
        { infoRecord with Message := "" } []).err = some "empty message"
    ∧ (HookHandler.Handle lineHandler (NewHookHandler () [failingHook]) background
        infoRecord []).calls.filter Call.isHandle = [Call.handle background infoRecord] :=
  ⟨by decide, by decide, by decide,
    (Handle_returns_inner_result lineHandler (NewHookHandler () [failingHook]) background
      infoRecord [] (fun _ _ _ => none)).1⟩

/-! ## C2: how often a hook fires -/

/-- The struct each call is handed: every `Fire` and the inner `Handle` get a
struct equal to the one `Handle` was given, and what a hook leaves in the
struct it was given (its `Message`, `Level`, inline attributes, slice header)
changes nothing in what `Handle` does.  This says nothing about the arrays the
struct points to. -/
theorem Handle_hands_over_struct_copy {σ H : Type} (ops : Handler σ H) (h : HookHandler σ H)
    (ctx : Context) (r : Record) (s : σ) (m : Nat → Record → σ → Record) :
    (∀ i cp, Call.fire i cp ∈ (HookHandler.Handle ops h ctx r s).calls → cp = r)
    ∧ (∀ c r2, Call.handle c r2 ∈ (HookHandler.Handle ops h ctx r s).calls → r2 = r)
    ∧ HookHandler.Handle ops { next := h.next, hooks := replaceCopies m 0 h.hooks } ctx r s
        = HookHandler.Handle ops h ctx r s := by
  have hrec : ∀ c ∈ (HookHandler.Handle ops h ctx r s).calls, c.record = r := by
    intro c hc
    rw [Handle_calls_eq, List.mem_append] at hc
    rcases hc with hc | hc
    · exact (all_isFire_enumFrom r h.hooks 0 c hc).2
    · rw [List.mem_singleton] at hc
      rw [hc]
      rfl
  refine ⟨?_, ?_, ?_⟩
  · intro i cp hc
    exact hrec _ hc
  · intro c r2 hc
    exact hrec _ hc
  · simp only [HookHandler.Handle, fireHooks_replaceCopies]

/-- C4 fails on the code at `sharedRecord`: `cp := r` copies the struct, not
the arrays it points to.  When `Handle` is called the record reads
`req.id=42 ... k6=v6`.  With `groupHook` registered, the inner handler is
handed the same struct and reads `req.id=mutated`: it sees what the hook
wrote through its copy.  With `tagHook` registered twice, both calls are
handed the same struct, the first finds 7 attributes after adding one to its
copy and the second finds 8: the first call wrote the spare slot of the shared
array of `back`, and `AddAttrs` in the second call finds it used and adds the
`!BUG` attribute. -/
theorem Handle_copy_shares_storage :
    renderRecord sharedMem.heap sharedRecord
      = "INFO hello world req.id=42 k2=v2 k3=v3 k4=v4 k5=v5 k6=v6"
    ∧ (HookHandler.Handle attrHandler (NewHookHandler () [groupHook]) background
        sharedRecord sharedMem).calls
      = [Call.fire 0 sharedRecord, Call.handle background sharedRecord]
    ∧ (HookHandler.Handle attrHandler (NewHookHandler () [groupHook]) background
        sharedRecord sharedMem).state.out
      = ["INFO hello world req.id=mutated k2=v2 k3=v3 k4=v4 k5=v5 k6=v6"]
    ∧ (HookHandler.Handle attrHandler (NewHookHandler () [tagHook, tagHook]) background
        sharedRecord sharedMem).calls
      = [Call.fire 0 sharedRecord, Call.fire 1 sharedRecord,
         Call.handle background sharedRecord]
    ∧ (HookHandler.Handle attrHandler (NewHookHandler () [tagHook, tagHook]) background
        sharedRecord sharedMem).state.out
      = ["attrs: 7", "attrs: 8", "INFO hello world req.id=42 k2=v2 k3=v3 k4=v4 k5=v5 k6=v6"]
    ∧ ((tagHook.Fire sharedRecord sharedMem).cp.Attrs
        (tagHook.Fire sharedRecord sharedMem).state.heap).map (fun a => a.Key)
      = ["req", "k2", "k3", "k4", "k5", "k6", "seen"]
    ∧ ((tagHook.Fire sharedRecord (tagHook.Fire sharedRecord sharedMem).state).cp.Attrs
        (tagHook.Fire sharedRecord (tagHook.Fire sharedRecord sharedMem).state).state.heap).map
          (fun a => a.Key)
      = ["req", "k2", "k3", "k4", "k5", "k6", "!BUG", "seen"] := by
  refine ⟨?_, ?_, ?_, ?_, ?_, ?_, ?_⟩ <;> decide

/-! ## C5: derived handlers -/

/-- C5: `WithAttrs` and `WithGroup` return a `HookHandler` around
`next.WithAttrs(attrs)`, respectively `next.WithGroup(name)`, whose hook list
is the parent's, so that the derived handler makes the same `Fire` calls as the
parent on every record. -/
theorem WithAttrs_WithGroup_keep_hooks {σ H : Type} (ops : Handler σ H) (h : HookHandler σ H)
    (attrs : List Attr) (name : String) :
    (HookHandler.WithAttrs ops h attrs).next = ops.WithAttrs h.next attrs
    ∧ (HookHandler.WithAttrs ops h attrs).hooks = h.hooks
    ∧ (HookHandler.WithGroup ops h name).next = ops.WithGroup h.next name
    ∧ (HookHandler.WithGroup ops h name).hooks = h.hooks
    ∧ (∀ ctx r s,
        (HookHandler.Handle ops (HookHandler.WithAttrs ops h attrs) ctx r s).calls.filter
            Call.isFire
          = (HookHandler.Handle ops h ctx r s).calls.filter Call.isFire)
    ∧ (∀ ctx r s,
        (HookHandler.Handle ops (HookHandler.WithGroup ops h name) ctx r s).calls.filter
            Call.isFire
          = (HookHandler.Handle ops h ctx r s).calls.filter Call.isFire) := by
  refine ⟨rfl, rfl, rfl, rfl, ?_, ?_⟩
  · intro ctx r s
    rw [Handle_calls_eq, Handle_calls_eq]
    rfl
  · intro ctx r s
    rw [Handle_calls_eq, Handle_calls_eq]
    rfl

/-- C5 at a concrete input: deriving from the handler of `main`. -/
theorem WithAttrs_WithGroup_keep_hooks_witness :
    (HookHandler.WithAttrs strictHandler
        ((NewHookHandler 0 []).AddHook (PrintHook stdoutPrintln)) [⟨"user", Value.str "alice"⟩]).next = 1
    ∧ (HookHandler.WithAttrs strictHandler
        ((NewHookHandler 0 []).AddHook (PrintHook stdoutPrintln)) [⟨"user", Value.str "alice"⟩]).hooks
      = [PrintHook stdoutPrintln] :=
  ⟨(WithAttrs_WithGroup_keep_hooks strictHandler
      ((NewHookHandler 0 []).AddHook (PrintHook stdoutPrintln)) [⟨"user", Value.str "alice"⟩] "g").1,
    (WithAttrs_WithGroup_keep_hooks strictHandler
      ((NewHookHandler 0 []).AddHook (PrintHook stdoutPrintln)) [⟨"user", Value.str "alice"⟩] "g").2.1⟩

/-! ## C6: construction and registration -/

/-- C6: `NewHookHandler(next, L...)` has inner handler `next` and hook list `L`;
after `AddHook(k)` the hook list is the old one followed by `k`: one longer,
the old hooks at their positions, `k` last, and the inner handler unchanged. -/
theorem AddHook_appends {σ H : Type} (next : H) (L : List (Hook σ)) (h : HookHandler σ H)
    (k : Hook σ) :
    (NewHookHandler next L).next = next
    ∧ (NewHookHandler next L).hooks = L
    ∧ ((NewHookHandler next L).AddHook k).hooks = L ++ [k]
    ∧ (h.AddHook k).hooks = h.hooks ++ [k]
    ∧ (h.AddHook k).hooks.length = h.hooks.length + 1
    ∧ (∀ i, i < h.hooks.length → (h.AddHook k).hooks[i]? = h.hooks[i]?)
    ∧ (h.AddHook k).hooks[h.hooks.length]? = some k
    ∧ (h.AddHook k).hooks.getLast? = some k
    ∧ (h.AddHook k).next = h.next := by
  refine ⟨rfl, rfl, rfl, rfl, ?_, ?_, ?_, ?_, rfl⟩
  · simp [HookHandler.AddHook]
  · intro i hi
    simp [HookHandler.AddHook, List.getElem?_append_left hi]
  · simp [HookHandler.AddHook]
  · simp [HookHandler.AddHook]

/-- C6 at a concrete input: adding the print hook after two hooks. -/
theorem AddHook_appends_witness :
    ((NewHookHandler () [failingHook, dupHook]).AddHook (PrintHook stdoutPrintln)).hooks
      = [failingHook, dupHook, PrintHook stdoutPrintln]
    ∧ ((NewHookHandler () [failingHook, dupHook]).AddHook (PrintHook stdoutPrintln)).hooks[1]?
      = (NewHookHandler () [failingHook, dupHook] : HookHandler Stdout Unit).hooks[1]? :=
  ⟨(AddHook_appends () [failingHook, dupHook] (NewHookHandler () [failingHook, dupHook])
      (PrintHook stdoutPrintln)).2.2.1,
    (AddHook_appends () [failingHook, dupHook] (NewHookHandler () [failingHook, dupHook])
      (PrintHook stdoutPrintln)).2.2.2.2.2.1 1 (by decide)⟩

/-! ## C7: `Enabled` -/

/-- C7: `Enabled` is the inner handler's `Enabled`, whatever the hook list. -/
theorem Enabled_delegates {σ H : Type} (ops : Handler σ H) (h : HookHandler σ H)
    (ctx : Context) (level : Level) (s : σ) (hooks : List (Hook σ)) :
    HookHandler.Enabled ops h ctx level s = ops.Enabled h.next ctx level s
    ∧ HookHandler.Enabled ops { next := h.next, hooks := hooks } ctx level s
        = HookHandler.Enabled ops h ctx level s :=
  ⟨rfl, rfl⟩

/-- C7 at a concrete input: Debug is disabled by the inner handler although
no hook says anything about it, and Warn is enabled although no hook lists it. -/
theorem Enabled_delegates_witness :
    HookHandler.Enabled lineHandler demoHandler background LevelDebug [] = false
    ∧ HookHandler.Enabled lineHandler demoHandler background LevelWarn [] = true
    ∧ HookHandler.Enabled lineHandler demoHandler background LevelDebug []
      = lineHandler.Enabled demoHandler.next background LevelDebug [] :=
  ⟨by decide, by decide,
    (Enabled_delegates lineHandler demoHandler background LevelDebug [] []).1⟩

/-! ## C8: levels outside the standard four -/

/-- C8 fails as stated: 2 (Info+2) is not a standard level, a hook lists it,
and a record at level 2 makes `Handle` fire that hook. -/
theorem customHook_fires_on_custom_level :
    (2 : Level) ∉ standardLevels
    ∧ (2 : Level) ∈ customHook.Levels
    ∧ customRecord.Level = 2
    ∧ (HookHandler.Handle lineHandler (NewHookHandler () [customHook]) background
        customRecord []).calls
      = [Call.fire 0 customRecord, Call.handle background customRecord]
    ∧ (HookHandler.Handle lineHandler (NewHookHandler () [customHook.dropLevel 2]) background
        customRecord []).calls
      = [Call.handle background customRecord] := by
  decide

/-- C8, amended: an entry `lvl` of `Levels()` that is not a standard level is
matched by no record whose level differs from it, in particular by no record
at a standard level: for such a record `Handle` makes the same calls and
returns the same error and world as with the entry removed from every hook.
A record whose level equals `lvl` does fire the hooks that list it. -/
theorem nonstandard_entry_matches_only_equal_level {σ H : Type} (ops : Handler σ H)
    (h : HookHandler σ H) (ctx : Context) (r : Record) (s : σ) (lvl : Level)
    (hns : lvl ∉ standardLevels) :
    (r.Level ∈ standardLevels →
        HookHandler.Handle ops { next := h.next, hooks := h.hooks.map (Hook.dropLevel lvl) }
            ctx r s
          = HookHandler.Handle ops h ctx r s)
    ∧ (r.Level ≠ lvl →
        HookHandler.Handle ops { next := h.next, hooks := h.hooks.map (Hook.dropLevel lvl) }
            ctx r s
          = HookHandler.Handle ops h ctx r s)
    ∧ (r.Level = lvl → ∀ i hk, h.hooks[i]? = some hk → lvl ∈ hk.Levels →
        1 ≤ fireCount i (HookHandler.Handle ops h ctx r s).calls) := by
  have hdrop : r.Level ≠ lvl →
      HookHandler.Handle ops { next := h.next, hooks := h.hooks.map (Hook.dropLevel lvl) }
          ctx r s
        = HookHandler.Handle ops h ctx r s := by
    intro hne
    simp only [HookHandler.Handle, fireHooks_dropLevel r lvl hne]
  refine ⟨?_, hdrop, ?_⟩
  · intro hstd
    exact hdrop (fun heq => hns (heq ▸ hstd))
  · intro heq i hk hget hmem
    rw [Handle_calls_eq]
    unfold fireCount
    rw [List.countP_append]
    have h1 := fireCount_enumFrom i r h.hooks 0
    unfold fireCount at h1
    rw [h1]
    have h2 : 0 < matchCount r h.hooks i :=
      (matchCount_pos_iff r h.hooks i).2 ⟨hk, hget, heq ▸ hmem⟩
    simp only [Nat.zero_le, if_true, Nat.sub_zero]
    omega

/-- C8 amended, at a concrete input: the entry 2 of the custom hook does
nothing for an Info record, and fires for a record at level 2. -/
theorem nonstandard_entry_matches_only_equal_level_witness :
    (2 : Level) ∉ standardLevels
    ∧ HookHandler.Handle lineHandler
        { next := (), hooks := [customHook, PrintHook stdoutPrintln].map (Hook.dropLevel 2) }
        background infoRecord []
      = HookHandler.Handle lineHandler
        { next := (), hooks := [customHook, PrintHook stdoutPrintln] } background infoRecord []
    ∧ 1 ≤ fireCount 0 (HookHandler.Handle lineHandler
        { next := (), hooks := [customHook, PrintHook stdoutPrintln] }
        background customRecord []).calls :=
  ⟨by decide,
    (nonstandard_entry_matches_only_equal_level lineHandler
      { next := (), hooks := [customHook, PrintHook stdoutPrintln] } background infoRecord []
      2 (by decide)).1 (by decide),
    (nonstandard_entry_matches_only_equal_level lineHandler
      { next := (), hooks := [customHook, PrintHook stdoutPrintln] } background customRecord []
      2 (by decide)).2.2 rfl 0 customHook rfl (by decide)⟩

/-! ## C9: the example hook, end to end -/

/-- C9: `PrintHook.Levels()` is `[Info, Error]`; `PrintHook.Fire` writes the one
line `HOOK FIRED: <level> <message>` and returns nil.  For the handler `main`
builds around any inner handler, an Info record "hello world", a Warn record
and an Error record "oh no" give: the print hook fired, its line written, then
the inner handler called on the Info record; only the inner handler called on
the Warn record; the print hook fired, its line written, then the inner
handler called on the Error record.  Handled in turn, the world at the end is
the one reached by: line for Info, inner handler on Info, inner handler on
Warn, line for Error, inner handler on Error.  Over an inner handler writing
`<level> <message>`, standard output is the five lines listed. -/
theorem printHook_end_to_end {σ H : Type} (println : String → σ → σ) (ops : Handler σ H)
    (next : H) (ctx : Context) (t1 t2 t3 : Int) (pc1 pc2 pc3 : Nat) (f1 f2 f3 : List Attr)
    (n1 n2 n3 : Nat) (b1 b2 b3 : Slice)
    (msg2 : String) (s : σ) :
    (PrintHook println).Levels = [LevelInfo, LevelError]
    ∧ (∀ r w, ((PrintHook println).Fire r w).err = none
        ∧ ((PrintHook println).Fire r w).state = println (hookLine r) w)
    ∧ (HookHandler.Handle ops ((NewHookHandler next []).AddHook (PrintHook println)) ctx
        ⟨t1, "hello world", LevelInfo, pc1, f1, n1, b1⟩ s).calls
      = [Call.fire 0 ⟨t1, "hello world", LevelInfo, pc1, f1, n1, b1⟩,
         Call.handle ctx ⟨t1, "hello world", LevelInfo, pc1, f1, n1, b1⟩]
    ∧ (HookHandler.Handle ops ((NewHookHandler next []).AddHook (PrintHook println)) ctx
        ⟨t1, "hello world", LevelInfo, pc1, f1, n1, b1⟩ s).state
      = (ops.Handle next ctx ⟨t1, "hello world", LevelInfo, pc1, f1, n1, b1⟩
          (println "HOOK FIRED: INFO hello world" s)).2
    ∧ (HookHandler.Handle ops ((NewHookHandler next []).AddHook (PrintHook println)) ctx
        ⟨t2, msg2, LevelWarn, pc2, f2, n2, b2⟩ s).calls
      = [Call.handle ctx ⟨t2, msg2, LevelWarn, pc2, f2, n2, b2⟩]
    ∧ (HookHandler.Handle ops ((NewHookHandler next []).AddHook (PrintHook println)) ctx
        ⟨t2, msg2, LevelWarn, pc2, f2, n2, b2⟩ s).state
      = (ops.Handle next ctx ⟨t2, msg2, LevelWarn, pc2, f2, n2, b2⟩ s).2
    ∧ (HookHandler.Handle ops ((NewHookHandler next []).AddHook (PrintHook println)) ctx
        ⟨t3, "oh no", LevelError, pc3, f3, n3, b3⟩ s).calls
      = [Call.fire 0 ⟨t3, "oh no", LevelError, pc3, f3, n3, b3⟩,
         Call.handle ctx ⟨t3, "oh no", LevelError, pc3, f3, n3, b3⟩]
    ∧ (HookHandler.Handle ops ((NewHookHandler next []).AddHook (PrintHook println)) ctx
        ⟨t3, "oh no", LevelError, pc3, f3, n3, b3⟩ s).state
      = (ops.Handle next ctx ⟨t3, "oh no", LevelError, pc3, f3, n3, b3⟩
          (println "HOOK FIRED: ERROR oh no" s)).2
    ∧ (HookHandler.Handle ops ((NewHookHandler next []).AddHook (PrintHook println)) ctx
        ⟨t3, "oh no", LevelError, pc3, f3, n3, b3⟩
        (HookHandler.Handle ops ((NewHookHandler next []).AddHook (PrintHook println)) ctx
          ⟨t2, msg2, LevelWarn, pc2, f2, n2, b2⟩
          (HookHandler.Handle ops ((NewHookHandler next []).AddHook (PrintHook println)) ctx
            ⟨t1, "hello world", LevelInfo, pc1, f1, n1, b1⟩ s).state).state).state
      = (ops.Handle next ctx ⟨t3, "oh no", LevelError, pc3, f3, n3, b3⟩
          (println "HOOK FIRED: ERROR oh no"
            (ops.Handle next ctx ⟨t2, msg2, LevelWarn, pc2, f2, n2, b2⟩
              (ops.Handle next ctx ⟨t1, "hello world", LevelInfo, pc1, f1, n1, b1⟩
                (println "HOOK FIRED: INFO hello world" s)).2).2)).2
    ∧ demoOutput
      = ["HOOK FIRED: INFO hello world", "INFO hello world",
         "WARN this should NOT fire the hook",
         "HOOK FIRED: ERROR oh no", "ERROR oh no"] := by
  have hl1 : hookLine ⟨t1, "hello world", LevelInfo, pc1, f1, n1, b1⟩
      = "HOOK FIRED: INFO hello world" := by
    show hookLine ⟨0, "hello world", LevelInfo, 0, [], 0, Slice.nil⟩ = "HOOK FIRED: INFO hello world"
    decide
  have hl3 : hookLine ⟨t3, "oh no", LevelError, pc3, f3, n3, b3⟩ = "HOOK FIRED: ERROR oh no" := by
    show hookLine ⟨0, "oh no", LevelError, 0, [], 0, Slice.nil⟩ = "HOOK FIRED: ERROR oh no"
    decide
  refine ⟨rfl, fun _ _ => ⟨rfl, rfl⟩, rfl, ?_, rfl, rfl, rfl, ?_, ?_, by decide⟩
  · rw [← hl1]
    rfl
  · rw [← hl3]
    rfl
  · rw [← hl1, ← hl3]
    rfl

/-- C9 at a concrete input: the first record of `main` through the handler of
`main`, over the line-writing inner handler. -/
theorem printHook_end_to_end_witness :
    (HookHandler.Handle lineHandler demoHandler background infoRecord []).calls
      = [Call.fire 0 infoRecord, Call.handle background infoRecord]
    ∧ (HookHandler.Handle lineHandler demoHandler background infoRecord []).state
      = ["HOOK FIRED: INFO hello world", "INFO hello world"] :=
  ⟨(printHook_end_to_end stdoutPrintln lineHandler () background 0 1 2 0 0 0
      infoRecord.front noAttrs noAttrs 1 0 0 Slice.nil Slice.nil Slice.nil
      "this should NOT fire the hook" []).2.2.1,
    by decide⟩

/-! ## C10: the dispatch algorithm -/

end SlogHooks
